import Mathlib

/-!
Shallow embedding of the `managers` Go package (an in-process actor
primitive): the Request/Response rendezvous protocol (`src/unnamed/part_002`),
the Manager dispatch loop (`src/manager.go`) and the process-wide name
registry (`src/unnamed/part_000`).

Go `interface{}` values are embedded as the inductive `GoValue`; a
`chan interface{}` rendezvous handle is embedded as `vchan v` where `v` is the
value the channel eventually delivers (receiving blocks until it arrives, so a
resolved wait observes exactly `v`).  Go `error` values are embedded as the
message string produced by `errors.New`.  The dispatch loop, which in Go
drains a channel mailbox one request at a time, is embedded as structural
recursion over the list of requests that arrived, in arrival order; the
interleaving of producers is outside the model, the FIFO mailbox order is in
it.
-/

namespace Managers

/-- Embedding of Go `interface{}` values as they flow through the package:
`vnil` is untyped nil, `verr` a value whose type assertion `.(error)`
succeeds (carrying its message), `vchan v` a `chan interface{}` that will
deliver `v`, and `vresp d e` a `*responseStruct` with fields `Data = d`,
`Error = e`. -/
inductive GoValue where
  | vnil : GoValue
  | vint : Int → GoValue
  | vstr : String → GoValue
  | verr : String → GoValue
  | vchan : GoValue → GoValue
  | vresp : GoValue → Option String → GoValue
deriving DecidableEq, Repr

/-- Embedding of the Go type assertion `data.(error)`: only `verr` values
assert to `error`. -/
def asError : GoValue → Option String
  | .verr m => some m
  | _ => none

/-- Embedding of `responseStruct` (src/unnamed/part_002 lines 27-30):
`Data interface{}` and `Error error`. -/
structure responseStruct where
  Data : GoValue
  Error : Option String
deriving DecidableEq, Repr

/-- Embedding of `responseStruct.getData` (src/unnamed/part_002 lines
115-142), by the pair of fields.  The Go code, when `Error == nil`, copies
`Data` into a local `data`, receives from it if it is a `chan interface{}`,
recurses if the (possibly received) value is a `*responseStruct`, and
otherwise returns `response.Data` — the original field, not the received
local. -/
def getData : GoValue → Option String → GoValue × Option String
  | _, some e => (.vnil, some e)
  | .vchan (.vresp d2 e2), none => getData d2 e2
  | .vresp d2 e2, none => getData d2 e2
  | d, none => (d, none)

/-- Method form of `getData` on a `responseStruct`. -/
def responseStruct.getData (response : responseStruct) : GoValue × Option String :=
  Managers.getData response.Data response.Error

/-- Embedding of `Request` (src/unnamed/part_002 lines 12-24).  The
`response chan responseStruct` field has capacity 1; it is embedded as the
list of responses currently buffered in it, in arrival order. -/
structure Request where
  Route : String
  Data : GoValue
  response : List responseStruct
deriving DecidableEq, Repr

/-- Embedding of `NewRequest` (src/unnamed/part_000 lines 47-53): a fresh
request whose rendezvous channel is empty. -/
def NewRequest (route : String) (data : GoValue) : Request :=
  { Route := route, Data := data, response := [] }

/-- Embedding of `Request.HasData` (src/unnamed/part_002 lines 97-99):
`len(request.response) > 0`. -/
def Request.HasData (request : Request) : Bool :=
  request.response.length > 0

/-- Embedding of `Request.storeResponse` (src/unnamed/part_002 lines
106-108): send the response into the rendezvous channel (append to the
buffer). -/
def Request.storeResponse (request : Request) (response : responseStruct) : Request :=
  { request with response := request.response ++ [response] }

/-- Embedding of `Request.Wait` (src/unnamed/part_002 lines 87-93): receive
the buffered response and apply `getData`.  `none` means the receive blocks
forever because no response was ever posted. -/
def Request.Wait (request : Request) : Option (GoValue × Option String) :=
  request.response.head?.map responseStruct.getData

/-- Lookup in a Go map embedded as an association list (first binding
wins). -/
def mapLookup {α : Type} : List (String × α) → String → Option α
  | [], _ => none
  | (k, v) :: rest, name => if k = name then some v else mapLookup rest name

/-- Embedding of `Manager` (src/manager.go lines 47-69).  The `requests`
channel mailbox is embedded as the FIFO list of requests it currently
buffers; `functions` as an association list from route to handler. -/
structure Manager where
  Name : String
  bufferSize : Nat
  requests : List Request
  running : Bool
  functions : List (String × (GoValue → GoValue → GoValue))

/-- Embedding of `Manager.IsRunning` (src/manager.go lines 153-157). -/
def Manager.IsRunning (manager : Manager) : Bool :=
  manager.running

/-- Embedding of `Manager.getFunction` (src/manager.go lines 271-279). -/
def Manager.getFunction (manager : Manager) (route : String) :
    Option (GoValue → GoValue → GoValue) :=
  mapLookup manager.functions route

/-- Embedding of `Manager.Attach` (src/manager.go lines 252-259): map
assignment overwrites, embedded as prepending (first binding wins in
`mapLookup`). -/
def Manager.Attach (manager : Manager) (route : String)
    (function : GoValue → GoValue → GoValue) : Manager :=
  { manager with functions := (route, function) :: manager.functions }

/-- Embedding of `Manager.Detach` (src/manager.go lines 263-267). -/
def Manager.Detach (manager : Manager) (route : String) : Manager :=
  { manager with functions := manager.functions.filter (fun p => p.1 ≠ route) }

/-- Embedding of `Manager.SendRequest` (src/manager.go lines 181-183):
enqueue at the tail of the FIFO mailbox. -/
def Manager.SendRequest (manager : Manager) (request : Request) : Manager :=
  { manager with requests := manager.requests ++ [request] }

/-- Embedding of `Manager.Send` (src/manager.go lines 165-176): build a
fresh request, enqueue it, return it.  Note the return type carries no error
component, matching the Go signature `func (m *Manager) Send(...) *Request`. -/
def Manager.Send (manager : Manager) (route : String) (data : GoValue) :
    Request × Manager :=
  let request := NewRequest route data
  (request, manager.SendRequest request)

/-- The reserved internal kill sentinel route (src/manager.go line 99). -/
def killRoute : String := "state|kill-manager"

/-- Record of one handler invocation performed by the dispatch loop: which
route's handler ran and the exact `(managerState, request.Data)` arguments
passed to it. -/
structure Invocation where
  route : String
  state : GoValue
  data : GoValue
deriving DecidableEq, Repr

/-- Embedding of the non-sentinel branch of the dispatch loop body
(src/manager.go lines 106-140): look up the route; if absent build the
"No function named ..." error response and invoke nothing; if present invoke
the handler with `(managerState, request.Data)`, and if its return value
asserts to `error`, clear `Data` and set `Error` to it.  Returns the
response to store and the list of handler invocations performed. -/
def Manager.processRequest (manager : Manager) (managerState : GoValue)
    (request : Request) : responseStruct × List Invocation :=
  match manager.getFunction request.Route with
  | none =>
      (⟨.vnil, some ("No function named " ++ request.Route ++ " added to "
          ++ manager.Name ++ " manager.")⟩, [])
  | some function =>
      let d := function managerState request.Data
      match asError d with
      | some err => (⟨.vnil, some err⟩, [⟨request.Route, managerState, request.Data⟩])
      | none => (⟨d, none⟩, [⟨request.Route, managerState, request.Data⟩])

/-- Outcome of running the dispatch loop over the requests that arrived:
`handled` is the list of dequeued requests in dispatch order, each with its
response stored into its rendezvous slot; `trace` the handler invocations in
order; `running` the loop status afterwards (`false` exactly when the kill
sentinel was processed and the loop exited, setting `manager.running =
false`; `true` when the loop is still blocked waiting for more requests);
`remaining` the mailbox content abandoned after the sentinel. -/
structure LoopResult where
  handled : List Request
  trace : List Invocation
  running : Bool
  remaining : List Request
deriving Repr

/-- Embedding of the dispatch loop of `Manager.Start` (src/manager.go lines
83-147) over the FIFO list of arrived requests.  Each iteration dequeues one
request; the sentinel stores the initial `{nil, nil}` response and breaks
(after which `running` is set to `false`); any other request is processed by
`processRequest` and its response stored. -/
def Manager.runLoop (manager : Manager) (managerState : GoValue) :
    List Request → LoopResult
  | [] => ⟨[], [], true, []⟩
  | request :: rest =>
      if request.Route = killRoute then
        ⟨[request.storeResponse ⟨.vnil, none⟩], [], false, rest⟩
      else
        let pr := manager.processRequest managerState request
        let r := manager.runLoop managerState rest
        ⟨request.storeResponse pr.1 :: r.handled, pr.2 ++ r.trace,
          r.running, r.remaining⟩

/-- Embedding of `Manager.Await` (src/manager.go lines 187-195) run to
completion against the dispatch loop: the fresh request is enqueued behind
the current mailbox, the loop drains the mailbox, and the caller waits on
the request's rendezvous.  `none` means the wait blocks forever (the loop
exited on an earlier kill sentinel before reaching this request). -/
def Manager.AwaitRun (manager : Manager) (managerState : GoValue)
    (route : String) (data : GoValue) : Option (GoValue × Option String) :=
  let r := manager.runLoop managerState (manager.requests ++ [NewRequest route data])
  r.handled[manager.requests.length]?.bind Request.Wait

/-- Embedding of `Manager.Kill` (src/manager.go lines 211-217) run to
completion: `Await(killRoute, nil)`, paired with the manager as it stands
after the loop has exited (mailbox drained up to the sentinel, `running`
cleared exactly when the loop exited). -/
def Manager.KillRun (manager : Manager) (managerState : GoValue) :
    Option (GoValue × Option String) × Manager :=
  let r := manager.runLoop managerState (manager.requests ++ [NewRequest killRoute .vnil])
  (r.handled[manager.requests.length]?.bind Request.Wait,
   { manager with running := manager.running && r.running, requests := r.remaining })

/-- The process-wide registry `managersMap` (src/manager.go line 19),
embedded as an association list from name to manager. -/
abbrev Registry := List (String × Manager)

/-- Embedding of `getManager` (src/manager.go lines 24-31). -/
def getManager (reg : Registry) (managerName : String) : Option Manager :=
  mapLookup reg managerName

/-- Embedding of `deleteManager` (src/manager.go lines 35-39): remove the
binding for the name from the map. -/
def deleteManager (reg : Registry) (managerName : String) : Registry :=
  reg.filter (fun p => p.1 ≠ managerName)

/-- Embedding of `NewManager` (src/unnamed/part_000 lines 16-42): construct
a fresh manager (empty mailbox of the given capacity, empty route table, not
running); if the name is already bound, return `nil` and the
"already exists!" error leaving the registry untouched, else insert the new
manager and return it. -/
def NewManager (reg : Registry) (name : String) (bufferSize : Nat) :
    (Option Manager × Option String) × Registry :=
  let newManager : Manager :=
    { Name := name, bufferSize := bufferSize, requests := [],
      running := false, functions := [] }
  match mapLookup reg name with
  | some _ => ((none, some ("Manager with name " ++ name ++ " already exists!")), reg)
  | none => ((some newManager, none), reg ++ [(name, newManager)])

/-- Embedding of `Manager.Remove` (src/manager.go lines 221-230): fail with
the "currently running" error if `IsRunning()`, else delete the registry
binding and return `nil`.  The manager itself (its loop, mailbox, flag) is
not touched. -/
def Manager.Remove (manager : Manager) (reg : Registry) : Option String × Registry :=
  if manager.IsRunning then
    (some ("Unable to remove manager " ++ manager.Name
        ++ " because it is currently running."), reg)
  else
    (none, deleteManager reg manager.Name)

/-- Embedding of `Manager.KillAndRemove` (src/manager.go lines 233-244) run
to completion: await the kill sentinel; if that returned an error, propagate
it without attempting `Remove`; else return `Remove`'s result.  The outer
`none` means `KillAndRemove` never returns (the kill await blocks
forever). -/
def Manager.KillAndRemoveRun (manager : Manager) (managerState : GoValue)
    (reg : Registry) : Option (Option String × Registry) :=
  match manager.KillRun managerState with
  | (none, _) => none
  | (some (_, some err), _) => some (some err, reg)
  | (some (_, none), m') => some (m'.Remove reg)

/-- Embedding of the public `Await` binding (src/unnamed/part_000 lines
94-107): resolve the name through the registry; absent managers fail at the
call site, otherwise forward to the manager's `Await`. -/
def PublicAwaitRun (reg : Registry) (managerName : String) (managerState : GoValue)
    (route : String) (data : GoValue) : Option (GoValue × Option String) :=
  match getManager reg managerName with
  | none => some (.vnil, some (managerName
      ++ " manager is not created or has been deleted (occurred during public await)."))
  | some manager => manager.AwaitRun managerState route data

/-- Values that the unwrap step of `getData` leaves untouched: anything that
is not a nested `*responseStruct` and not a channel delivering one. -/
def isTerminal : GoValue → Bool
  | .vresp _ _ => false
  | .vchan (.vresp _ _) => false
  | _ => true

/-- The request as it stands after the dispatch loop processed it: its
`processRequest` response stored in its rendezvous slot. -/
def dispatchFill (m : Manager) (s : GoValue) (r : Request) : Request :=
  r.storeResponse (m.processRequest s r).1

/-- The part of a request fixed at creation and untouched by dispatch: its
route and payload. -/
def routeData (r : Request) : String × GoValue :=
  (r.Route, r.Data)

/-- Concrete handler returning a nested responseStruct wrapping 7. -/
def c1NestHandler : GoValue → GoValue → GoValue :=
  fun _ _ => .vresp (.vint 7) none

/-- Concrete manager with `c1NestHandler` attached at route "r". -/
def c1NestMgr : Manager :=
  { Name := "M", bufferSize := 1, requests := [], running := true,
    functions := [("r", c1NestHandler)] }

/-- Concrete manager with an echo handler attached at route "echo". -/
def c1EchoMgr : Manager :=
  { Name := "W1", bufferSize := 2, requests := [], running := true,
    functions := [("echo", fun _ x => x)] }

/-- Concrete registry produced by a first `NewManager "A"` call. -/
def c3Reg : Registry := (NewManager [] "A" 3).2

/-- Concrete running manager with no attached routes. -/
def c4Mgr : Manager :=
  { Name := "M4", bufferSize := 2, requests := [], running := true,
    functions := [] }

/-- Concrete handler that signals failure by returning an error value. -/
def c5Handler : GoValue → GoValue → GoValue :=
  fun _ _ => .verr "boom"

/-- Concrete manager with the failing handler attached at route "fail". -/
def c5Mgr : Manager :=
  { Name := "M5", bufferSize := 2, requests := [], running := true,
    functions := [("fail", c5Handler)] }

/-- Concrete running manager used for the kill-then-remove scenario. -/
def c6Mgr : Manager :=
  { Name := "M6", bufferSize := 2, requests := [], running := true,
    functions := [] }

/-- Concrete registry holding `c6Mgr` under its name. -/
def c6Reg : Registry := [("M6", c6Mgr)]

/-- Concrete running manager for the Remove-while-running case. -/
def c7RunMgr : Manager :=
  { Name := "R", bufferSize := 1, requests := [], running := true,
    functions := [] }

/-- Concrete stopped manager for the Remove-after-stop case. -/
def c7StopMgr : Manager :=
  { Name := "S", bufferSize := 1, requests := [], running := false,
    functions := [] }

/-- Concrete registry holding both managers of the Remove scenario. -/
def c7Reg : Registry := [("R", c7RunMgr), ("S", c7StopMgr)]

/-- Concrete manager receiving two requests for the FIFO scenario. -/
def c8Mgr : Manager :=
  { Name := "M8", bufferSize := 4, requests := [], running := true,
    functions := [] }

/-- Concrete manager for the rendezvous-slot scenario. -/
def c9Mgr : Manager :=
  { Name := "M9", bufferSize := 4, requests := [], running := true,
    functions := [] }

/-- Concrete running manager for the kill-sentinel scenario. -/
def c10Mgr : Manager :=
  { Name := "MX", bufferSize := 2, requests := [], running := true,
    functions := [] }

/-- Concrete registry holding `c10Mgr` under its name. -/
def c10Reg : Registry := [("MX", c10Mgr)]

/-!  Helper lemmas about the dispatch loop. -/

lemma routeData_storeResponse (r : Request) (resp : responseStruct) :
    routeData (r.storeResponse resp) = routeData r := rfl

lemma wait_storeResponse_fresh (route : String) (data : GoValue)
    (resp : responseStruct) :
    ((NewRequest route data).storeResponse resp).Wait = some resp.getData := rfl

lemma runLoop_no_kill (m : Manager) (s : GoValue) (q : List Request)
    (hq : ∀ r ∈ q, r.Route ≠ killRoute) :
    m.runLoop s q =
      ⟨q.map (dispatchFill m s),
       (q.map fun r => (m.processRequest s r).2).flatten, true, []⟩ := by
  induction q with
  | nil => rfl
  | cons a t ih =>
      have ha : ¬ a.Route = killRoute := hq a (List.mem_cons_self a t)
      have ht : ∀ r ∈ t, r.Route ≠ killRoute := fun r hr => hq r (List.mem_cons_of_mem a hr)
      simp [Manager.runLoop, ha, ih ht, dispatchFill]

lemma runLoop_append_kill (m : Manager) (s : GoValue) (q : List Request)
    (kreq : Request) (hq : ∀ r ∈ q, r.Route ≠ killRoute)
    (hk : kreq.Route = killRoute) :
    m.runLoop s (q ++ [kreq]) =
      ⟨q.map (dispatchFill m s) ++ [kreq.storeResponse ⟨.vnil, none⟩],
       (q.map fun r => (m.processRequest s r).2).flatten, false, []⟩ := by
  induction q with
  | nil => simp [Manager.runLoop, hk]
  | cons a t ih =>
      have ha : ¬ a.Route = killRoute := hq a (List.mem_cons_self a t)
      have ht : ∀ r ∈ t, r.Route ≠ killRoute := fun r hr => hq r (List.mem_cons_of_mem a hr)
      simp [Manager.runLoop, ha, ih ht, dispatchFill]

lemma awaitRun_eq_getData (m : Manager) (s : GoValue) (route : String)
    (data : GoValue) (hq : ∀ r ∈ m.requests, r.Route ≠ killRoute)
    (hroute : route ≠ killRoute) :
    m.AwaitRun s route data
      = some (m.processRequest s (NewRequest route data)).1.getData := by
  have hall : ∀ r ∈ m.requests ++ [NewRequest route data], r.Route ≠ killRoute := by
    intro r hr
    rcases List.mem_append.mp hr with h | h
    · exact hq r h
    · simp only [List.mem_singleton] at h
      subst h
      exact hroute
  unfold Manager.AwaitRun
  rw [runLoop_no_kill m s _ hall]
  simp [List.getElem?_map, List.getElem?_concat_length, dispatchFill,
    wait_storeResponse_fresh]

lemma getData_of_isTerminal (d : GoValue) (h : isTerminal d = true) :
    getData d none = (d, none) := by
  cases d with
  | vchan v => cases v <;> simp_all [isTerminal, getData]
  | vresp v e => simp [isTerminal] at h
  | _ => rfl

lemma mapLookup_eq_none_iff {α : Type} (l : List (String × α)) (name : String) :
    mapLookup l name = none ↔ name ∉ l.map Prod.fst := by
  induction l with
  | nil => simp [mapLookup]
  | cons p t ih =>
      simp only [mapLookup, List.map_cons, List.mem_cons]
      by_cases h : p.1 = name
      · simp [h]
      · rw [if_neg h, ih]
        constructor
        · intro hn hc
          rcases hc with hc | hc
          · exact h hc.symm
          · exact hn hc
        · exact fun hn hm => hn (Or.inr hm)

lemma mapLookup_filter_self {α : Type} (l : List (String × α)) (name : String) :
    mapLookup (l.filter fun p => p.1 ≠ name) name = none := by
  induction l with
  | nil => rfl
  | cons p t ih =>
      by_cases h : p.1 = name
      · rw [List.filter_cons, if_neg (by simp [h])]
        exact ih
      · rw [List.filter_cons, if_pos (by simp [h])]
        simp only [mapLookup]
        rw [if_neg h]
        exact ih

lemma mapLookup_filter_other {α : Type} (l : List (String × α)) (name n : String)
    (hne : n ≠ name) :
    mapLookup (l.filter fun p => p.1 ≠ name) n = mapLookup l n := by
  induction l with
  | nil => rfl
  | cons p t ih =>
      by_cases h : p.1 = name
      · have h2 : ¬ p.1 = n := fun hh => hne (hh.symm.trans h)
        rw [List.filter_cons, if_neg (by simp [h]), ih]
        simp only [mapLookup]
        rw [if_neg h2]
      · rw [List.filter_cons, if_pos (by simp [h])]
        simp only [mapLookup]
        by_cases h2 : p.1 = n
        · rw [if_pos h2, if_pos h2]
        · rw [if_neg h2, if_neg h2, ih]

lemma isPrefix_getElem? {α : Type} {l1 l2 : List α} (h : List.IsPrefix l1 l2)
    (k : Nat) (hk : k < l1.length) : l2[k]? = l1[k]? := by
  obtain ⟨t, rfl⟩ := h
  exact List.getElem?_append_left hk

lemma runLoop_handled_prefix (m : Manager) (s : GoValue) (q : List Request) :
    List.IsPrefix ((m.runLoop s q).handled.map routeData) (q.map routeData) := by
  induction q with
  | nil => exact List.nil_prefix
  | cons a t ih =>
      by_cases ha : a.Route = killRoute
      · simp only [Manager.runLoop, ha, if_pos rfl, List.map_cons, List.map_nil]
        exact List.cons_prefix_cons.mpr ⟨rfl, List.nil_prefix⟩
      · simp only [Manager.runLoop, ha, if_neg ha, List.map_cons]
        exact List.cons_prefix_cons.mpr ⟨rfl, ih⟩

lemma processRequest_found (m : Manager) (s : GoValue) (route : String)
    (data : GoValue) (f : GoValue → GoValue → GoValue)
    (hf : m.getFunction route = some f) :
    m.processRequest s (NewRequest route data)
      = (match asError (f s data) with
         | some err => (⟨.vnil, some err⟩, [⟨route, s, data⟩])
         | none => (⟨f s data, none⟩, [⟨route, s, data⟩])) := by
  have hr : (NewRequest route data).Route = route := rfl
  simp [Manager.processRequest, NewRequest, hf]

/-!  Theorems settling the claims. -/

/-- C1 (counterexample to the claim as stated): a handler whose return value
is not an error but is a nested `*responseStruct` — here wrapping the
integer 7 — makes `Await` return the unwrapped inner value `7`, not the
handler's return value itself. -/
theorem c1_roundTrip_counterexample :
    c1NestMgr.getFunction "r" = some c1NestHandler
    ∧ asError (c1NestHandler .vnil .vnil) = none
    ∧ c1NestMgr.AwaitRun .vnil "r" .vnil = some (.vint 7, none)
    ∧ c1NestMgr.AwaitRun .vnil "r" .vnil ≠ some (c1NestHandler .vnil .vnil, none) :=
  ⟨rfl, rfl, rfl, by decide⟩

/-- C1 (amended): for every Manager with a handler `f` attached at route `r`
and owned state `s`, and for every payload `x`, if `f(s, x)` is not an error
value and is terminal for the unwrapping step (not a nested responseStruct
and not a channel delivering one), then `Await(r, x)` returns exactly
`f(s, x)` with a nil error — and so does the public `Await(name, r, x)` for
a registered manager.  (Hypotheses: the route is not the reserved kill
sentinel and no kill sentinel is already queued ahead, so the request is
actually dispatched.) -/
theorem c1_await_roundTrip_terminal (m : Manager) (s : GoValue) (route : String)
    (data : GoValue) (f : GoValue → GoValue → GoValue)
    (hq : ∀ r ∈ m.requests, r.Route ≠ killRoute)
    (hroute : route ≠ killRoute)
    (hf : m.getFunction route = some f)
    (herr : asError (f s data) = none)
    (hterm : isTerminal (f s data) = true) :
    m.AwaitRun s route data = some (f s data, none)
    ∧ ∀ (reg : Registry) (name : String), getManager reg name = some m →
        PublicAwaitRun reg name s route data = some (f s data, none) := by
  have hmain : m.AwaitRun s route data = some (f s data, none) := by
    rw [awaitRun_eq_getData m s route data hq hroute]
    rw [processRequest_found m s route data f hf, herr]
    simp [responseStruct.getData, getData_of_isTerminal _ hterm]
  refine ⟨hmain, fun reg name hm => ?_⟩
  simp [PublicAwaitRun, hm, hmain]

/-- Witness for `c1_await_roundTrip_terminal`: an echo handler applied to
the payload `3`. -/
theorem c1_await_roundTrip_terminal_witness :
    (∀ r ∈ c1EchoMgr.requests, r.Route ≠ killRoute)
    ∧ "echo" ≠ killRoute
    ∧ c1EchoMgr.AwaitRun .vnil "echo" (.vint 3) = some (.vint 3, none) := by
  have h := c1_await_roundTrip_terminal c1EchoMgr .vnil "echo" (.vint 3)
      (fun _ x => x) (by simp [c1EchoMgr]) (by decide) rfl rfl rfl
  exact ⟨by simp [c1EchoMgr], by decide, h.1⟩

/-- C2 (code bug): `getData` receives from a channel but, when the received
value is not a nested responseStruct, returns the original `Data` field —
the channel itself — instead of the received terminal value.  Here the
channel delivers the terminal `42`: the claim (and the code's own comment)
says the outcome is `42`; the code yields the channel.  The sibling branches
(channel delivering a nested responseStruct, and a direct nested
responseStruct) do recurse to the innermost value, confirming the intent. -/
theorem c2_unwrap_drops_channel_value :
    responseStruct.getData ⟨.vchan (.vint 42), none⟩ = (.vchan (.vint 42), none)
    ∧ responseStruct.getData ⟨.vchan (.vint 42), none⟩ ≠ (.vint 42, none)
    ∧ Request.Wait ((NewRequest "r" .vnil).storeResponse ⟨.vchan (.vint 42), none⟩)
        = some (.vchan (.vint 42), none)
    ∧ responseStruct.getData ⟨.vchan (.vresp (.vint 7) none), none⟩ = (.vint 7, none)
    ∧ responseStruct.getData ⟨.vresp (.vresp (.vint 7) none) none, none⟩ = (.vint 7, none) := by
  decide

/-- C3: creating a Manager under a name already bound in the registry
returns the "already exists!" error and leaves the registry exactly as it
was; and `NewManager` preserves uniqueness of names in the registry. -/
theorem c3_newManager_unique (reg : Registry) (name : String) (n : Nat) :
    ((∃ m0, mapLookup reg name = some m0) →
      NewManager reg name n
        = ((none, some ("Manager with name " ++ name ++ " already exists!")), reg))
    ∧ ((reg.map Prod.fst).Nodup → ((NewManager reg name n).2.map Prod.fst).Nodup) := by
  constructor
  · rintro ⟨m0, hm⟩
    simp [NewManager, hm]
  · intro hnodup
    cases h : mapLookup reg name with
    | some m0 => simpa [NewManager, h] using hnodup
    | none =>
        have hnot : name ∉ reg.map Prod.fst := (mapLookup_eq_none_iff reg name).mp h
        simp only [NewManager, h]
        rw [List.map_append, List.nodup_append]
        refine ⟨hnodup, List.nodup_singleton _, ?_⟩
        intro a ha hb
        simp only [List.map_cons, List.map_nil, List.mem_singleton] at hb
        subst hb
        exact hnot ha

/-- Witness for `c3_newManager_unique`: a second `NewManager "A"` against
the one-entry registry produced by the first call fails and leaves that
registry intact and duplicate-free. -/
theorem c3_newManager_unique_witness :
    (∃ m0, mapLookup c3Reg "A" = some m0)
    ∧ NewManager c3Reg "A" 3
        = ((none, some "Manager with name A already exists!"), c3Reg)
    ∧ ((NewManager c3Reg "A" 3).2.map Prod.fst).Nodup := by
  refine ⟨⟨_, rfl⟩, ?_, ?_⟩
  · exact (c3_newManager_unique c3Reg "A" 3).1 ⟨_, rfl⟩
  · exact (c3_newManager_unique c3Reg "A" 3).2 (by simp [c3Reg, NewManager, mapLookup])

/-- C4: a request whose route has no attached handler at dispatch time gets
the "No function named `<route>` added to `<name>` manager." error as its
Response error, no handler is invoked on the owned state (the dispatch
contributes nothing to the invocation trace, so the state is untouched),
the error surfaces through that request's Wait/Await, and `Send` returns
the request with its rendezvous still empty — no call-site error. -/
theorem c4_unknown_route (m : Manager) (s : GoValue) (route : String)
    (data : GoValue)
    (hq : ∀ r ∈ m.requests, r.Route ≠ killRoute)
    (hroute : route ≠ killRoute)
    (hf : m.getFunction route = none) :
    m.processRequest s (NewRequest route data)
      = (⟨.vnil, some ("No function named " ++ route ++ " added to "
            ++ m.Name ++ " manager.")⟩, [])
    ∧ m.AwaitRun s route data
      = some (.vnil, some ("No function named " ++ route ++ " added to "
            ++ m.Name ++ " manager."))
    ∧ (m.runLoop s (m.requests ++ [NewRequest route data])).trace
      = (m.runLoop s m.requests).trace
    ∧ (m.Send route data).1.HasData = false := by
  have hall : ∀ r ∈ m.requests ++ [NewRequest route data], r.Route ≠ killRoute := by
    intro r hr
    rcases List.mem_append.mp hr with h | h
    · exact hq r h
    · simp only [List.mem_singleton] at h
      subst h
      exact hroute
  have hpr : m.processRequest s (NewRequest route data)
      = (⟨.vnil, some ("No function named " ++ route ++ " added to "
            ++ m.Name ++ " manager.")⟩, []) := by
    simp [Manager.processRequest, NewRequest, hf]
  refine ⟨hpr, ?_, ?_, rfl⟩
  · rw [awaitRun_eq_getData m s route data hq hroute, hpr]
    rfl
  · rw [runLoop_no_kill m s _ hall, runLoop_no_kill m s _ hq]
    simp [List.map_append, hpr]

/-- Witness for `c4_unknown_route`: awaiting the unattached route "ghost"
on a manager named "M4". -/
theorem c4_unknown_route_witness :
    c4Mgr.getFunction "ghost" = none
    ∧ "ghost" ≠ killRoute
    ∧ c4Mgr.AwaitRun .vnil "ghost" (.vint 1)
        = some (.vnil, some "No function named ghost added to M4 manager.")
    ∧ (c4Mgr.Send "ghost" (.vint 1)).1.HasData = false := by
  have h := c4_unknown_route c4Mgr .vnil "ghost" (.vint 1)
      (by simp [c4Mgr]) (by decide) rfl
  exact ⟨rfl, by decide, h.2.1, h.2.2.2⟩

/-- C5: when a handler's return value is recognized as an error, that error
becomes the Response's error and the Response's result is cleared to nil,
so Await/Wait on that request returns a nil result with that error. -/
theorem c5_handler_error (m : Manager) (s : GoValue) (route : String)
    (data : GoValue) (f : GoValue → GoValue → GoValue) (e : String)
    (hq : ∀ r ∈ m.requests, r.Route ≠ killRoute)
    (hroute : route ≠ killRoute)
    (hf : m.getFunction route = some f)
    (herr : asError (f s data) = some e) :
    m.processRequest s (NewRequest route data)
      = (⟨.vnil, some e⟩, [⟨route, s, data⟩])
    ∧ m.AwaitRun s route data = some (.vnil, some e) := by
  have hpr := processRequest_found m s route data f hf
  rw [herr] at hpr
  refine ⟨hpr, ?_⟩
  rw [awaitRun_eq_getData m s route data hq hroute, hpr]
  rfl

/-- Witness for `c5_handler_error`: a handler returning the error "boom". -/
theorem c5_handler_error_witness :
    c5Mgr.getFunction "fail" = some c5Handler
    ∧ asError (c5Handler .vnil .vnil) = some "boom"
    ∧ c5Mgr.AwaitRun .vnil "fail" .vnil = some (.vnil, some "boom") := by
  have h := c5_handler_error c5Mgr .vnil "fail" .vnil c5Handler "boom"
      (by simp [c5Mgr]) (by decide) rfl rfl
  exact ⟨rfl, rfl, h.2⟩

/-- C6: on a started Manager, Kill (awaiting the kill sentinel) returns
only once the dispatch loop has exited, with the sentinel's empty success
Response; the manager afterwards reports `IsRunning = false`, a subsequent
Remove succeeds and deletes the registry entry, while Remove attempted on
the still-running manager fails with the "currently running" error and
leaves the registry unchanged. -/
theorem c6_kill_then_remove (m : Manager) (s : GoValue) (reg : Registry)
    (hq : ∀ r ∈ m.requests, r.Route ≠ killRoute)
    (hrun : m.running = true) :
    (m.KillRun s).1 = some (.vnil, none)
    ∧ (m.KillRun s).2.IsRunning = false
    ∧ (m.KillRun s).2.Remove reg = (none, deleteManager reg m.Name)
    ∧ m.Remove reg
        = (some ("Unable to remove manager " ++ m.Name
            ++ " because it is currently running."), reg) := by
  have hrl := runLoop_append_kill m s m.requests (NewRequest killRoute .vnil) hq rfl
  have hget : ((m.requests.map (dispatchFill m s))
        ++ [(NewRequest killRoute .vnil).storeResponse ⟨.vnil, none⟩])[m.requests.length]?
      = some ((NewRequest killRoute .vnil).storeResponse ⟨.vnil, none⟩) := by
    have hl : (m.requests.map (dispatchFill m s)).length = m.requests.length :=
      List.length_map _ _
    rw [← hl]
    exact List.getElem?_concat_length _ _
  have h1 : (m.KillRun s).1 = some (.vnil, none) := by
    unfold Manager.KillRun
    rw [hrl]
    simp only [hget, Option.bind_some]
    rfl
  have h2 : (m.KillRun s).2.IsRunning = false := by
    unfold Manager.KillRun
    rw [hrl]
    simp [Manager.IsRunning]
  refine ⟨h1, h2, ?_, ?_⟩
  · simp only [Manager.Remove, h2, Bool.false_eq_true, if_false]
    rfl
  · simp [Manager.Remove, Manager.IsRunning, hrun]

/-- Witness for `c6_kill_then_remove`: killing the running manager "M6"
then removing it from its one-entry registry. -/
theorem c6_kill_then_remove_witness :
    c6Mgr.running = true
    ∧ (c6Mgr.KillRun .vnil).1 = some (.vnil, none)
    ∧ (c6Mgr.KillRun .vnil).2.IsRunning = false
    ∧ (c6Mgr.KillRun .vnil).2.Remove c6Reg = (none, [])
    ∧ c6Mgr.Remove c6Reg
        = (some "Unable to remove manager M6 because it is currently running.", c6Reg) := by
  have h := c6_kill_then_remove c6Mgr .vnil c6Reg (by simp [c6Mgr]) rfl
  exact ⟨rfl, h.1, h.2.1, h.2.2.1, h.2.2.2⟩

/-- C7: Remove fails with the "currently running" error and leaves the
registry in place when `IsRunning()` is true; when false it returns nil and
deletes exactly the manager's registry entry (its own name no longer
resolves, every other name resolves as before).  Remove itself never
touches the actor's loop or flag. -/
theorem c7_remove (m : Manager) (reg : Registry) :
    (m.IsRunning = true →
      m.Remove reg = (some ("Unable to remove manager " ++ m.Name
          ++ " because it is currently running."), reg))
    ∧ (m.IsRunning = false →
      (m.Remove reg).1 = none
      ∧ (m.Remove reg).2 = deleteManager reg m.Name
      ∧ getManager (m.Remove reg).2 m.Name = none
      ∧ ∀ n2, n2 ≠ m.Name → getManager (m.Remove reg).2 n2 = getManager reg n2) := by
  constructor
  · intro h
    simp [Manager.Remove, h]
  · intro h
    have h2 : m.Remove reg = (none, deleteManager reg m.Name) := by
      simp [Manager.Remove, h]
    rw [h2]
    exact ⟨rfl, rfl, mapLookup_filter_self reg m.Name,
      fun n2 hn => mapLookup_filter_other reg m.Name n2 hn⟩

/-- Witness for `c7_remove`: the running manager "R" cannot be removed; the
stopped manager "S" is removed, after which "S" no longer resolves but "R"
still does. -/
theorem c7_remove_witness :
    c7RunMgr.IsRunning = true
    ∧ c7RunMgr.Remove c7Reg
        = (some "Unable to remove manager R because it is currently running.", c7Reg)
    ∧ c7StopMgr.IsRunning = false
    ∧ (c7StopMgr.Remove c7Reg).1 = none
    ∧ getManager (c7StopMgr.Remove c7Reg).2 "S" = none
    ∧ getManager (c7StopMgr.Remove c7Reg).2 "R" = some c7RunMgr := by
  have h1 := (c7_remove c7RunMgr c7Reg).1 rfl
  have h2 := (c7_remove c7StopMgr c7Reg).2 rfl
  refine ⟨rfl, h1, rfl, h2.1, h2.2.2.1, ?_⟩
  rw [h2.2.2.2 "R" (by decide)]
  rfl

lemma getElem?_map_append_two {α β : Type} (f : α → β) (q : List α) (a b : α) :
    ((q ++ [a] ++ [b]).map f)[q.length]? = some (f a)
    ∧ ((q ++ [a] ++ [b]).map f)[q.length + 1]? = some (f b) := by
  have hl : (q.map f).length = q.length := List.length_map _ _
  have he : (q ++ [a] ++ [b]).map f = q.map f ++ [f a, f b] := by
    simp
  constructor
  · rw [he, List.getElem?_append_right (by rw [hl])]
    simp [hl]
  · rw [he, List.getElem?_append_right (by rw [hl]; exact Nat.le_succ _)]
    simp [hl]

/-- C8: requests enqueued by Send/SendRequest are appended at the mailbox
tail, and the dispatch loop dequeues in exactly the mailbox's FIFO arrival
order: the sequence of (route, payload) pairs the loop begins handling is a
prefix of the enqueued sequence.  In particular, for `r1` enqueued before
`r2`, if `r2`'s handling ever begins then `r1` is handled at a strictly
earlier dispatch position. -/
theorem c8_fifo (m : Manager) (s : GoValue) (r1 r2 : Request) :
    ((m.SendRequest r1).SendRequest r2).requests = m.requests ++ [r1] ++ [r2]
    ∧ List.IsPrefix
        ((m.runLoop s (m.requests ++ [r1] ++ [r2])).handled.map routeData)
        ((m.requests ++ [r1] ++ [r2]).map routeData)
    ∧ (m.requests.length + 1
          < (m.runLoop s (m.requests ++ [r1] ++ [r2])).handled.length →
        ((m.runLoop s (m.requests ++ [r1] ++ [r2])).handled.map routeData)[m.requests.length]?
            = some (routeData r1)
        ∧ ((m.runLoop s (m.requests ++ [r1] ++ [r2])).handled.map routeData)[m.requests.length + 1]?
            = some (routeData r2)) := by
  have hpre := runLoop_handled_prefix m s (m.requests ++ [r1] ++ [r2])
  refine ⟨by simp [Manager.SendRequest], hpre, fun hlen => ?_⟩
  have hlenmap : ((m.runLoop s (m.requests ++ [r1] ++ [r2])).handled.map routeData).length
      = (m.runLoop s (m.requests ++ [r1] ++ [r2])).handled.length :=
    List.length_map _ _
  have htwo := getElem?_map_append_two routeData m.requests r1 r2
  constructor
  · rw [← isPrefix_getElem? hpre m.requests.length
      (by rw [hlenmap]; exact Nat.lt_of_succ_lt hlen)]
    exact htwo.1
  · rw [← isPrefix_getElem? hpre (m.requests.length + 1) (by rw [hlenmap]; exact hlen)]
    exact htwo.2

/-- Witness for `c8_fifo`: two requests "a" then "b" sent to an idle
manager are dispatched at positions 0 and 1 respectively. -/
theorem c8_fifo_witness :
    0 + 1 < (c8Mgr.runLoop .vnil (c8Mgr.requests
        ++ [NewRequest "a" (.vint 1)] ++ [NewRequest "b" (.vint 2)])).handled.length
    ∧ ((c8Mgr.runLoop .vnil (c8Mgr.requests
        ++ [NewRequest "a" (.vint 1)] ++ [NewRequest "b" (.vint 2)])).handled.map
          routeData)[(0 : Nat)]? = some ("a", .vint 1)
    ∧ ((c8Mgr.runLoop .vnil (c8Mgr.requests
        ++ [NewRequest "a" (.vint 1)] ++ [NewRequest "b" (.vint 2)])).handled.map
          routeData)[(1 : Nat)]? = some ("b", .vint 2) := by
  have h := (c8_fifo c8Mgr .vnil (NewRequest "a" (.vint 1))
      (NewRequest "b" (.vint 2))).2.2 (by decide)
  exact ⟨by decide, h.1, h.2⟩

lemma runLoop_handled_once (m : Manager) (s : GoValue) :
    ∀ (q : List Request), (∀ r ∈ q, r.response = []) →
      ∀ r' ∈ (m.runLoop s q).handled, r'.response.length = 1 := by
  intro q
  induction q with
  | nil =>
      intro _ r' hr'
      simp [Manager.runLoop] at hr'
  | cons a t ih =>
      intro hfresh r' hr'
      have ha0 : a.response = [] := hfresh a (List.mem_cons_self a t)
      have ht : ∀ r ∈ t, r.response = [] := fun r hr => hfresh r (List.mem_cons_of_mem a hr)
      by_cases ha : a.Route = killRoute
      · simp only [Manager.runLoop, if_pos ha, List.mem_singleton] at hr'
        subst hr'
        simp [Request.storeResponse, ha0]
      · simp only [Manager.runLoop, if_neg ha, List.mem_cons] at hr'
        rcases hr' with hr' | hr'
        · subst hr'
          simp [Request.storeResponse, ha0]
        · exact ih ht r' hr'

/-- C9: each request dispatched from a mailbox of fresh requests ends with
exactly one Response in its rendezvous slot (so the capacity-1 slot is
written at most once and storing never blocks the actor); `HasData` is a
pure peek — false from creation until a Response is posted, true
afterwards, equivalent to the slot being non-empty — and the Response is
still delivered via `Wait`. -/
theorem c9_rendezvous_once (m : Manager) (s : GoValue) (q : List Request)
    (hfresh : ∀ r ∈ q, r.response = []) :
    (∀ r' ∈ (m.runLoop s q).handled, r'.response.length = 1)
    ∧ (∀ route data, (NewRequest route data).HasData = false)
    ∧ (∀ r : Request, r.HasData = true ↔ r.response ≠ [])
    ∧ (∀ (r : Request) (resp : responseStruct), (r.storeResponse resp).HasData = true)
    ∧ (∀ route data (resp : responseStruct),
        ((NewRequest route data).storeResponse resp).Wait = some resp.getData) := by
  refine ⟨runLoop_handled_once m s q hfresh, fun _ _ => rfl, ?_, ?_, fun _ _ _ => rfl⟩
  · intro r
    simp [Request.HasData, List.length_pos]
  · intro r resp
    simp [Request.HasData, Request.storeResponse]

/-- Witness for `c9_rendezvous_once`: one fresh request dispatched on an
unknown route ends with exactly one buffered Response. -/
theorem c9_rendezvous_once_witness :
    (∀ r ∈ [NewRequest "x" (.vint 1)], r.response = [])
    ∧ (∀ r' ∈ (c9Mgr.runLoop .vnil [NewRequest "x" (.vint 1)]).handled,
        r'.response.length = 1)
    ∧ (NewRequest "x" (.vint 1)).HasData = false := by
  have h := c9_rendezvous_once c9Mgr .vnil [NewRequest "x" (.vint 1)]
      (by simp [NewRequest])
  exact ⟨by simp [NewRequest], h.1, h.2.1 "x" (.vint 1)⟩

lemma killRun_handled_sentinel (m : Manager) (s : GoValue)
    (hq : ∀ r ∈ m.requests, r.Route ≠ killRoute) :
    (m.runLoop s (m.requests ++ [NewRequest killRoute .vnil])).handled[m.requests.length]?
      = some ((NewRequest killRoute .vnil).storeResponse ⟨.vnil, none⟩) := by
  rw [runLoop_append_kill m s m.requests (NewRequest killRoute .vnil) hq rfl]
  have hl : (m.requests.map (dispatchFill m s)).length = m.requests.length :=
    List.length_map _ _
  show ((m.requests.map (dispatchFill m s))
      ++ [(NewRequest killRoute .vnil).storeResponse ⟨.vnil, none⟩])[m.requests.length]? = _
  rw [← hl]
  exact List.getElem?_concat_length _ _

lemma killRun_fst (m : Manager) (s : GoValue)
    (hq : ∀ r ∈ m.requests, r.Route ≠ killRoute) :
    (m.KillRun s).1 = some (.vnil, none) := by
  unfold Manager.KillRun
  simp only [killRun_handled_sentinel m s hq, Option.bind_some]
  rfl

/-- C10: when the dispatch loop processes the kill sentinel it stores the
untouched initial Response — nil data, nil error — so Kill on a running
manager returns a nil error; hence KillAndRemove's kill-failure branch is
not taken for a processed sentinel, and its result is exactly Remove's
result on the stopped manager. -/
theorem c10_kill_sentinel (m : Manager) (s : GoValue) (reg : Registry)
    (hq : ∀ r ∈ m.requests, r.Route ≠ killRoute) :
    (m.runLoop s (m.requests ++ [NewRequest killRoute .vnil])).handled[m.requests.length]?
      = some ((NewRequest killRoute .vnil).storeResponse ⟨.vnil, none⟩)
    ∧ (m.KillRun s).1 = some (.vnil, none)
    ∧ (m.KillRun s).1.map Prod.snd = some none
    ∧ m.KillAndRemoveRun s reg = some ((m.KillRun s).2.Remove reg) := by
  refine ⟨killRun_handled_sentinel m s hq, killRun_fst m s hq, ?_, ?_⟩
  · rw [killRun_fst m s hq]
    rfl
  · have hpair : m.KillRun s = (some (.vnil, none), (m.KillRun s).2) := by
      rw [← killRun_fst m s hq]
    unfold Manager.KillAndRemoveRun
    rw [hpair]

/-- Witness for `c10_kill_sentinel`: killing the running manager "MX" and
removing it from its one-entry registry in one `KillAndRemove`. -/
theorem c10_kill_sentinel_witness :
    (c10Mgr.KillRun .vnil).1 = some (.vnil, none)
    ∧ c10Mgr.KillAndRemoveRun .vnil c10Reg
        = some ((c10Mgr.KillRun .vnil).2.Remove c10Reg) := by
  have h := c10_kill_sentinel c10Mgr .vnil c10Reg (by simp [c10Mgr])
  exact ⟨h.2.1, h.2.2.2⟩

end Managers
